import Mathlib

/-
Formal model of the content pipeline of the ws-django-portfolio-blog repository:
slug generation (src/utils/rands.py), search-query sanitization and the
publication query layer (src/blog/views.py), and the save pipelines of the
Tag, Category, Page and Post entities (src/blog/models.py).

String-processing code is embedded over the ASCII fragment of Python's
character classes: the regular-expression classes `\w` and `\s`, `str.lower`,
and `str.split` are modeled on characters with code points below 128, which is
the range the repository's own test data exercises; `django.utils.text.slugify`
additionally coerces its input to ASCII itself (`encode('ascii', 'ignore')`),
whose NFKD-normalization step is modeled as dropping non-ASCII characters.
Randomness (`random.SystemRandom().choices`) is modeled by passing the drawn
suffix as an explicit parameter constrained by `randomLettersSpec`.
-/

/-! Character classes, stated on `Char.toNat` (ASCII code points). -/

/-- Python regex class `\s` on the ASCII range: space, tab, linefeed, carriage
return, vertical tab, form feed. -/
def isPyWs (c : Char) : Bool :=
  c.toNat = 32 || c.toNat = 9 || c.toNat = 10 || c.toNat = 13 ||
    c.toNat = 11 || c.toNat = 12

/-- ASCII upper-case letter `A`-`Z`. -/
def isUpperA (c : Char) : Bool := 65 ≤ c.toNat && c.toNat ≤ 90

/-- ASCII lower-case letter `a`-`z`. -/
def isLowerA (c : Char) : Bool := 97 ≤ c.toNat && c.toNat ≤ 122

/-- ASCII digit `0`-`9`. -/
def isDigitA (c : Char) : Bool := 48 ≤ c.toNat && c.toNat ≤ 57

/-- ASCII alphanumeric character. -/
def isAlphanumA (c : Char) : Bool := isUpperA c || isLowerA c || isDigitA c

/-- Python regex class `\w` on the ASCII range: letters, digits and the
underscore (code point 95). -/
def isPyWord (c : Char) : Bool := isAlphanumA c || c.toNat = 95

/-- Python `str.lower` on the ASCII range: map `A`-`Z` to `a`-`z`, leave every
other character unchanged. -/
def lower (c : Char) : Char :=
  if 65 ≤ c.toNat ∧ c.toNat ≤ 90 then Char.ofNat (c.toNat + 32) else c

/-! Slug generation, src/utils/rands.py. -/

/-- Character class `[-\s]` collapsed by the final substitution step of
`django.utils.text.slugify`. -/
def isDashOrWs (c : Char) : Bool := isPyWs c || c.toNat = 45

/-- One left-to-right pass of `re.sub(r"[-\s]+", "-", value)`: every maximal
run of characters in `[-\s]` becomes a single hyphen. `prevSep` records
whether the previous character belonged to such a run. -/
def collapseDashWs : Bool → List Char → List Char
  | _, [] => []
  | prevSep, c :: rest =>
    if isDashOrWs c then
      if prevSep then collapseDashWs true rest
      else '-' :: collapseDashWs true rest
    else c :: collapseDashWs false rest

/-- Characters removed from both ends by `str.strip("-_")`. -/
def isDashOrUnderscore (c : Char) : Bool := c.toNat = 45 || c.toNat = 95

/-- Python `value.strip("-_")`: drop leading and trailing hyphens and
underscores. -/
def stripDashUnderscore (l : List Char) : List Char :=
  ((l.dropWhile isDashOrUnderscore).reverse.dropWhile isDashOrUnderscore).reverse

/-- Model of `django.utils.text.slugify(value, allow_unicode=False)` as called by
`slugify_new` in src/utils/rands.py:
normalize to ASCII (`unicodedata.normalize("NFKD", value).encode("ascii",
"ignore")`, modeled as dropping non-ASCII characters), lowercase, delete every
character outside `[\w\s-]` (`re.sub(r"[^\w\s-]", "", value.lower())`),
collapse runs of `[-\s]` to single hyphens (`re.sub(r"[-\s]+", "-", value)`),
and strip leading/trailing `-` and `_` (`.strip("-_")`). -/
def slugify (s : String) : String :=
  let ascii := s.data.filter (fun c => c.toNat < 128)
  let cleaned := (ascii.map lower).filter (fun c => isPyWord c || isPyWs c || c.toNat = 45)
  String.mk (stripDashUnderscore (collapseDashWs false cleaned))

/-- Character set drawn from by `random_letters` in src/utils/rands.py:
`string.ascii_lowercase + string.digits`. -/
def isRandChar (c : Char) : Bool := isLowerA c || isDigitA c

/-- Specification of the string returned by `random_letters(k)` in
src/utils/rands.py: `k` characters, each a lowercase ASCII letter or digit.
The drawn string itself is passed around as an explicit `suffix` parameter. -/
def randomLettersSpec (suffix : String) (k : Nat) : Bool :=
  suffix.length == k && suffix.data.all isRandChar

/-- Function `slugify_new(text, k)` from src/utils/rands.py:
`slugify(text) + '-' + random_letters(k)`; the random draw is the `suffix`
parameter. -/
def slugify_new (text : String) (suffix : String) : String :=
  slugify text ++ "-" ++ suffix

/-! Search-query sanitization, src/blog/views.py. -/

/-- Python `str.split()` with no arguments: split on maximal runs of
whitespace, producing no empty words. `cur` holds the current word reversed. -/
def pySplitAux (cur : List Char) : List Char → List (List Char)
  | [] => if cur.isEmpty then [] else [cur.reverse]
  | c :: rest =>
    if isPyWs c then
      if cur.isEmpty then pySplitAux [] rest
      else cur.reverse :: pySplitAux [] rest
    else pySplitAux (c :: cur) rest

/-- Python `str.split()` with no arguments. -/
def pySplit (l : List Char) : List (List Char) := pySplitAux [] l

/-- Python `' '.join(words)`. -/
def joinSpace : List (List Char) → List Char
  | [] => []
  | [w] => w
  | w :: ws => w ++ ' ' :: joinSpace ws

/-- Function `sanitize_search_query` from src/blog/views.py:
`query = re.sub(r'[^\w\s]', ' ', query)` followed by
`query = ' '.join(query.lower().split())`. -/
def sanitize_search_query (query : String) : String :=
  let step1 := query.data.map (fun c => if isPyWord c || isPyWs c then c else ' ')
  String.mk (joinSpace (pySplit (step1.map lower)))

/-! Data model, src/blog/models.py. Records carry the fields the claims are
about; foreign keys (`Post.category`) and the many-to-many relation
(`Post.tags`) are embedded as the joined records they resolve to, and the
nullable `created_by` user reference as the referenced user's primary key. -/

/-- Tag model: `name`, unique `slug` (nullable, blank allowed; blank/None is
modeled as the empty string). -/
structure Tag where
  name : String
  slug : String
deriving DecidableEq, Repr

/-- Category model: same shape as `Tag`. -/
structure Category where
  name : String
  slug : String
deriving DecidableEq, Repr

/-- Page model: `title`, unique `slug` (default empty), `is_published`
(default false), `content`. -/
structure Page where
  title : String
  slug : String
  is_published : Bool
  content : String
deriving DecidableEq, Repr

/-- Post model: the fields used by the publication query layer and the save
pipeline. `cover` holds the stored file name of the cover image, empty when no
cover is set (`FieldFile` truthiness in `if self.cover:` is name non-emptiness).
`created_by` is the nullable author primary key. -/
structure Post where
  pk : Nat
  title : String
  slug : String
  excerpt : String
  is_published : Bool
  content : String
  cover : String
  created_by : Option Nat
  category : Option Category
  tags : List Tag
deriving DecidableEq, Repr

/-- The relational store: the persisted rows each view queries, plus the
primary keys of the existing `User` rows (`django.contrib.auth.models.User`). -/
structure Store where
  posts : List Post
  pages : List Page
  users : List Nat
deriving DecidableEq, Repr

/-- Django's `Http404` signal, raised by the views for missing content. -/
inductive Http404 where
  | notFound
deriving DecidableEq, Repr

/-! Entity save pipelines, src/blog/models.py. Each `save` first resolves a
blank slug through `slugify_new(<name or title>, 4)` and then delegates to the
framework write (`super().save()`). The slug columns are declared
`unique=True`, so the write is rejected (: `none`) when another stored row
already carries the same slug; on success the saved row is added to the store.
The random draw of `random_letters(4)` is the explicit `suffix` parameter. -/

/-- Method `Tag.save` from src/blog/models.py lines 83-96. -/
def Tag.save (t : Tag) (suffix : String) (store : List Tag) :
    Option (Tag × List Tag) :=
  let t1 := if t.slug = "" then { t with slug := slugify_new t.name suffix } else t
  if store.any (fun r => r.slug = t1.slug) then none
  else some (t1, t1 :: store)

/-- Method `Category.save` from src/blog/models.py lines 123-136. -/
def Category.save (c : Category) (suffix : String) (store : List Category) :
    Option (Category × List Category) :=
  let c1 := if c.slug = "" then { c with slug := slugify_new c.name suffix } else c
  if store.any (fun r => r.slug = c1.slug) then none
  else some (c1, c1 :: store)

/-- Method `Page.save` from src/blog/models.py lines 184-197 (slug from `title`). -/
def Page.save (p : Page) (suffix : String) (store : List Page) :
    Option (Page × List Page) :=
  let p1 := if p.slug = "" then { p with slug := slugify_new p.title suffix } else p
  if store.any (fun r => r.slug = p1.slug) then none
  else some (p1, p1 :: store)

/-- Method `Post.save` from src/blog/models.py lines 296-321: resolve a blank slug,
capture `current_cover_name = str(self.cover.name)`, run the framework write
(unique-slug constraint; the storage backend finalizes the stored file name of
the cover during the write, passed in as `cover_name_after_write` — it equals
the pre-save name whenever the cover field was not reassigned), then compare:
`if self.cover: cover_changed = current_cover_name != self.cover.name`, and
invoke `resize_image(self.cover, 900, True, 70)` exactly when `cover_changed`.
The returned boolean records whether `resize_image` was invoked. -/
def Post.save (p : Post) (suffix : String) (cover_name_after_write : String)
    (store : List Post) : Option (Post × List Post × Bool) :=
  let p1 := if p.slug = "" then { p with slug := slugify_new p.title suffix } else p
  let current_cover_name := p1.cover
  if store.any (fun r => r.slug = p1.slug) then none
  else
    let p2 := { p1 with cover := cover_name_after_write }
    let cover_changed :=
      if p2.cover ≠ "" then decide (current_cover_name ≠ p2.cover) else false
    some (p2, p2 :: store, cover_changed)

/-! Publication query layer, src/blog/views.py and the manager in
src/blog/models.py. -/

/-- Fixed page size, src/blog/views.py line 16. -/
def PER_PAGE : Nat := 9

/-- Insert a post into a list sorted by descending `pk`. -/
def insertDesc (p : Post) : List Post → List Post
  | [] => [p]
  | q :: rest => if q.pk ≤ p.pk then p :: q :: rest else q :: insertDesc p rest

/-- Sort posts by descending `pk` — the `order_by('-pk')` ordering. -/
def orderByPkDesc : List Post → List Post
  | [] => []
  | p :: rest => insertDesc p (orderByPkDesc rest)

/-- Manager method `PostManager.get_published` from src/blog/models.py lines 208-212:
`self.filter(is_published=True).order_by('-pk')`. -/
def PostManager.get_published (posts : List Post) : List Post :=
  orderByPkDesc (posts.filter (fun p => p.is_published))

/-- Attribute `PostListView.queryset` from src/blog/views.py line 47:
`Post.objects.get_published()`. -/
def PostListView.queryset (s : Store) : List Post :=
  PostManager.get_published s.posts

/-- Method `CreateByListView.get_queryset` from src/blog/views.py lines 101-105:
the published queryset filtered by `created_by__pk`. -/
def CreateByListView.get_queryset (s : Store) (author_pk : Nat) : List Post :=
  (PostListView.queryset s).filter (fun p => p.created_by == some author_pk)

/-- Method `CreateByListView.get` from src/blog/views.py lines 107-122: resolve
`User.objects.filter(pk=author_pk).first()`, raise `Http404` when the user
does not exist, otherwise serve the filtered queryset. -/
def CreateByListView.get (s : Store) (author_pk : Nat) :
    Except Http404 (List Post) :=
  if s.users.contains author_pk then .ok (CreateByListView.get_queryset s author_pk)
  else .error .notFound

/-- Method `CategoryListView.get_queryset` from src/blog/views.py lines 151-154:
the published queryset filtered by `category__slug`. -/
def CategoryListView.get_queryset (s : Store) (slug : String) : List Post :=
  (PostListView.queryset s).filter (fun p => p.category.map Category.slug == some slug)

/-- Method `TagListView.get_queryset` from src/blog/views.py lines 191-194:
the published queryset filtered by `tags__slug`. -/
def TagListView.get_queryset (s : Store) (slug : String) : List Post :=
  (PostListView.queryset s).filter (fun p => p.tags.any (fun t => t.slug == slug))

/-- View `TagListView` request handling, src/blog/views.py lines 189-213: with
`allow_empty = False` an empty queryset raises `Http404` (re-checked
explicitly in `get_context_data`); otherwise
`tag_object = posts[0].tags.filter(slug=slug).first()` resolves the tag, a
missing tag raises `Http404`, and the page title is
`f'{tag_object.name} - Tag - '`. Returns the matched posts with the title. -/
def TagListView.get (s : Store) (slug : String) :
    Except Http404 (List Post × String) :=
  match TagListView.get_queryset s slug with
  | [] => .error .notFound
  | p :: rest =>
    match (p.tags.filter (fun t => t.slug == slug)) with
    | [] => .error .notFound
    | tagObj :: _ => .ok (p :: rest, tagObj.name ++ " - Tag - ")

/-- Django `__icontains`: case-insensitive containment. `occursAtStart` and
`occursIn` spell out contiguous-substring occurrence. -/
def occursAtStart : List Char → List Char → Bool
  | [], _ => true
  | _ :: _, [] => false
  | a :: as, b :: bs => a == b && occursAtStart as bs

/-- Containment of `needle` as a contiguous run inside the second list. -/
def occursIn (needle : List Char) : List Char → Bool
  | [] => occursAtStart needle []
  | c :: rest => occursAtStart needle (c :: rest) || occursIn needle rest

/-- Django field lookup `field__icontains=value`, ASCII lowering. -/
def icontains (haystack needle : String) : Bool :=
  occursIn (needle.data.map lower) (haystack.data.map lower)

/-- The search filter of `SearchListView.get_queryset`, src/blog/views.py
lines 258-261: `Q(title__icontains=v) | Q(excerpt__icontains=v) |
Q(content__icontains=v)` over the published queryset. -/
def searchMatches (s : Store) (search_value : String) : List Post :=
  (PostListView.queryset s).filter
    (fun p => icontains p.title search_value || icontains p.excerpt search_value ||
      icontains p.content search_value)

/-- Method `SearchListView.get_queryset` from src/blog/views.py lines 256-262: the
filtered published queryset sliced to its first `PER_PAGE` elements
(`[0:PER_PAGE]`). `search_value` is the already-sanitized query. -/
def SearchListView.get_queryset (s : Store) (search_value : String) : List Post :=
  (searchMatches s search_value).take PER_PAGE

/-- Methods `PageDetailView.get_queryset`/`get_object`, src/blog/views.py lines
345-359: the page looked up by `slug` among pages with `is_published=True`;
`none` models the `Http404` of a failed lookup. -/
def PageDetailView.get_object (s : Store) (slug : String) : Option Page :=
  (s.pages.filter (fun pg => pg.is_published)).find? (fun pg => pg.slug == slug)

/-- Methods `PostDetailView.get_queryset`/`get_object`, src/blog/views.py lines
398-411: the post looked up by `slug` among posts with `is_published=True`. -/
def PostDetailView.get_object (s : Store) (slug : String) : Option Post :=
  (s.posts.filter (fun p => p.is_published)).find? (fun p => p.slug == slug)

/-- Property `django.core.paginator.Paginator.num_pages` with `orphans=0` and
`allow_empty_first_page=True`, as used by `ListView` with
`paginate_by=PER_PAGE`: `ceil(max(1, count) / per_page)`. -/
def Paginator.num_pages (count per_page : Nat) : Nat :=
  max 1 ((count + per_page - 1) / per_page)

/-- Method `MultipleObjectMixin.paginate_queryset` of Django's `ListView` as invoked
with `paginate_by = PER_PAGE`: `Paginator.validate_number` accepts the 1-based
page numbers `1..num_pages` and raises `EmptyPage` otherwise, which the view
turns into `Http404`; a valid page `n` holds the slice
`[(n-1)*per_page, n*per_page)` of the object list. -/
def paginate_queryset (l : List Post) (per_page page_number : Nat) :
    Except Http404 (List Post) :=
  if 1 ≤ page_number ∧ page_number ≤ Paginator.num_pages l.length per_page then
    .ok ((l.drop ((page_number - 1) * per_page)).take per_page)
  else .error .notFound

/-! Sample rows used to instantiate the theorems at concrete inputs. -/

def tagA : Tag := { name := "Test Tag", slug := "test_tag" }

def catA : Category := { name := "Test Category", slug := "test_category" }

def pageA : Page :=
  { title := "Test Page", slug := "test_page", is_published := true,
    content := "page content" }

def pageB : Page :=
  { title := "Hidden Page", slug := "hidden_page", is_published := false,
    content := "hidden" }

def postA : Post :=
  { pk := 1, title := "This is post one", slug := "post-one",
    excerpt := "first excerpt", is_published := true, content := "content one",
    cover := "", created_by := some 1, category := some catA, tags := [tagA] }

def postB : Post :=
  { pk := 2, title := "This is post two", slug := "post-two",
    excerpt := "second excerpt", is_published := false, content := "content two",
    cover := "", created_by := some 1, category := some catA, tags := [tagA] }

def storeA : Store :=
  { posts := [postA, postB], pages := [pageA, pageB], users := [1] }

/-- The transformation described by claim C4, written from its words: replace
every character that is neither alphanumeric nor whitespace with a space,
collapse every run of whitespace to a single space with no leading or trailing
space, and lowercase the result. (Stated over the ASCII character classes the
repository's code operates on.) -/
def sanitizeClaimC4 (query : String) : String :=
  let replaced := query.data.map (fun c => if isAlphanumA c || isPyWs c then c else ' ')
  String.mk ((joinSpace (pySplit replaced)).map lower)

/-- The amended description: as `sanitizeClaimC4`, but characters that are
alphanumeric, underscore, or whitespace are kept (Python's `\w` includes the
underscore). -/
def sanitizeSpecC4 (query : String) : String :=
  let replaced := query.data.map
    (fun c => if isAlphanumA c || c.toNat = 95 || isPyWs c then c else ' ')
  String.mk ((joinSpace (pySplit replaced)).map lower)

/-- Decidable equality for `Except` results, used to evaluate the view
operations at concrete inputs. -/
instance {e a : Type} [DecidableEq e] [DecidableEq a] : DecidableEq (Except e a) :=
  fun x y =>
    match x, y with
    | .ok v, .ok w =>
      if h : v = w then isTrue (by rw [h]) else isFalse (by simp [h])
    | .error v, .error w =>
      if h : v = w then isTrue (by rw [h]) else isFalse (by simp [h])
    | .ok _, .error _ => isFalse (by simp)
    | .error _, .ok _ => isFalse (by simp)

/-- Validity of a slug for Django's `SlugField`: non-empty, characters drawn
from `[-a-zA-Z0-9_]` (the `validate_slug` regular expression). -/
def isValidDjangoSlug (s : String) : Bool :=
  (1 ≤ s.length) && s.data.all
    (fun c => isLowerA c || isUpperA c || isDigitA c || c.toNat = 45 || c.toNat = 95)

/-! Basic character lemmas. -/

theorem charToNat_inj {a b : Char} (h : a.toNat = b.toNat) : a = b := by
  have ha := Char.ofNat_toNat a
  rw [h, Char.ofNat_toNat] at ha
  exact ha.symm

theorem lower_spec (c : Char) :
    (65 ≤ c.toNat ∧ c.toNat ≤ 90 ∧ (lower c).toNat = c.toNat + 32) ∨
    (¬(65 ≤ c.toNat ∧ c.toNat ≤ 90) ∧ lower c = c) := by
  unfold lower
  split
  · next h =>
    left
    obtain ⟨h1, h2⟩ := h
    refine ⟨h1, h2, ?_⟩
    set n := c.toNat with hn
    interval_cases n <;> decide

  · next h => right; exact ⟨h, rfl⟩

theorem isUpperA_lower (c : Char) : isUpperA (lower c) = false := by
  rcases lower_spec c with ⟨h1, h2, h3⟩ | ⟨h1, h2⟩
  · apply Bool.eq_false_iff.mpr
    intro hcon
    simp only [isUpperA, Bool.and_eq_true, decide_eq_true_eq] at hcon
    omega
  · rw [h2]
    apply Bool.eq_false_iff.mpr
    intro hcon
    simp only [isUpperA, Bool.and_eq_true, decide_eq_true_eq] at hcon
    exact h1 ⟨hcon.1, hcon.2⟩

theorem isPyWs_lower (c : Char) : isPyWs (lower c) = isPyWs c := by
  rcases lower_spec c with ⟨h1, h2, h3⟩ | ⟨_, h2⟩
  · have hl : isPyWs (lower c) = false := by
      apply Bool.eq_false_iff.mpr
      intro hcon
      simp only [isPyWs, Bool.or_eq_true, decide_eq_true_eq] at hcon
      rw [h3] at hcon
      omega
    have hr : isPyWs c = false := by
      apply Bool.eq_false_iff.mpr
      intro hcon
      simp only [isPyWs, Bool.or_eq_true, decide_eq_true_eq] at hcon
      omega
    rw [hl, hr]
  · rw [h2]

/-! Membership lemmas for the ordered published queryset. -/

theorem mem_insertDesc {x p : Post} {l : List Post} :
    x ∈ insertDesc p l ↔ x = p ∨ x ∈ l := by
  induction l with
  | nil => simp [insertDesc]
  | cons q rest ih =>
    simp only [insertDesc]
    split
    · simp [List.mem_cons]
    · simp only [List.mem_cons, ih]
      tauto

theorem mem_orderByPkDesc {x : Post} {l : List Post} :
    x ∈ orderByPkDesc l ↔ x ∈ l := by
  induction l with
  | nil => simp [orderByPkDesc]
  | cons p rest ih =>
    simp only [orderByPkDesc, mem_insertDesc, ih, List.mem_cons]

theorem published_of_mem_queryset {s : Store} {p : Post}
    (h : p ∈ PostListView.queryset s) : p.is_published = true := by
  unfold PostListView.queryset PostManager.get_published at h
  rw [mem_orderByPkDesc] at h
  exact (List.mem_filter.mp h).2

theorem mem_posts_of_mem_queryset {s : Store} {p : Post}
    (h : p ∈ PostListView.queryset s) : p ∈ s.posts := by
  unfold PostListView.queryset PostManager.get_published at h
  rw [mem_orderByPkDesc] at h
  exact (List.mem_filter.mp h).1

/-- C1: for every state of the store and every combination of the optional
filters (author id, category slug, tag slug, free-text query — and, more
generally, any additional filter predicate `f` applied over the published
queryset), every post returned by the public listing operations and every
post or page returned by the detail operations has `is_published = true`;
no filter choice makes an unpublished post or page appear in any result. -/
theorem C1_only_published_results (s : Store) (f : Post → Bool) (author_pk : Nat)
    (catSlug tagSlug searchVal detailSlug pageSlug : String) :
    (∀ p ∈ PostListView.queryset s, p.is_published = true) ∧
    (∀ p ∈ (PostListView.queryset s).filter f, p.is_published = true) ∧
    (∀ p ∈ CreateByListView.get_queryset s author_pk, p.is_published = true) ∧
    (∀ p ∈ CategoryListView.get_queryset s catSlug, p.is_published = true) ∧
    (∀ p ∈ TagListView.get_queryset s tagSlug, p.is_published = true) ∧
    (∀ p ∈ SearchListView.get_queryset s searchVal, p.is_published = true) ∧
    (∀ p, PostDetailView.get_object s detailSlug = some p → p.is_published = true) ∧
    (∀ pg, PageDetailView.get_object s pageSlug = some pg → pg.is_published = true) := by
  refine ⟨?_, ?_, ?_, ?_, ?_, ?_, ?_, ?_⟩
  · exact fun p hp => published_of_mem_queryset hp
  · exact fun p hp => published_of_mem_queryset (List.mem_filter.mp hp).1
  · exact fun p hp => published_of_mem_queryset (List.mem_filter.mp hp).1
  · exact fun p hp => published_of_mem_queryset (List.mem_filter.mp hp).1
  · exact fun p hp => published_of_mem_queryset (List.mem_filter.mp hp).1
  · intro p hp
    unfold SearchListView.get_queryset at hp
    have hp2 := List.take_subset _ _ hp
    exact published_of_mem_queryset (List.mem_filter.mp hp2).1
  · intro p hp
    unfold PostDetailView.get_object at hp
    have := List.mem_of_find?_eq_some hp
    exact (List.mem_filter.mp this).2
  · intro pg hpg
    unfold PageDetailView.get_object at hpg
    have := List.mem_of_find?_eq_some hpg
    exact (List.mem_filter.mp this).2

/-- Non-vacuity of `C1_only_published_results`: the sample store contains a
published post and a published page, and both are actually returned. -/
theorem C1_only_published_results_witness :
    (postA ∈ PostListView.queryset storeA ∧ postA.is_published = true) ∧
    (PageDetailView.get_object storeA "test_page" = some pageA ∧
      pageA.is_published = true) := by
  refine ⟨⟨by decide, ?_⟩, ⟨by decide, ?_⟩⟩
  · exact (C1_only_published_results storeA (fun _ => true) 1 "c" "t" "q" "d"
      "test_page").1 postA (by decide)
  · exact (C1_only_published_results storeA (fun _ => true) 1 "c" "t" "q" "d"
      "test_page").2.2.2.2.2.2.2 pageA (by decide)

/-! Slug generation never yields an empty slug. -/

theorem slugify_new_ne_empty (t suffix : String) : slugify_new t suffix ≠ "" := by
  intro h
  have hlen : (slugify_new t suffix).length = 0 := by rw [h]; rfl
  unfold slugify_new at hlen
  rw [String.length_append, String.length_append] at hlen
  have hone : ("-" : String).length = 1 := by decide
  omega

theorem all_not_of_not_any {α : Type} {p : α → Bool} {l : List α}
    (h : ¬l.any p = true) : ∀ r ∈ l, ¬p r = true := by
  simp only [List.any_eq_true, not_exists] at h
  intro r hr hp
  exact h r ⟨hr, hp⟩

/-- C2: for every entity with a slug field (Tag, Category, Page, Post): a save
that starts from a blank slug stores a record whose slug is non-empty and
unique among the stored records of that type (the inserted row's slug differs
from every previously stored row's slug); a save that starts from a non-blank
slug leaves the slug unchanged. -/
theorem C2_slug_invariants_on_save (suffix : String) :
    (∀ (t t2 : Tag) (store store2 : List Tag),
      Tag.save t suffix store = some (t2, store2) →
        (t.slug = "" → t2.slug ≠ "" ∧ store2 = t2 :: store ∧
          ∀ r ∈ store, r.slug ≠ t2.slug) ∧
        (t.slug ≠ "" → t2.slug = t.slug)) ∧
    (∀ (c c2 : Category) (store store2 : List Category),
      Category.save c suffix store = some (c2, store2) →
        (c.slug = "" → c2.slug ≠ "" ∧ store2 = c2 :: store ∧
          ∀ r ∈ store, r.slug ≠ c2.slug) ∧
        (c.slug ≠ "" → c2.slug = c.slug)) ∧
    (∀ (g g2 : Page) (store store2 : List Page),
      Page.save g suffix store = some (g2, store2) →
        (g.slug = "" → g2.slug ≠ "" ∧ store2 = g2 :: store ∧
          ∀ r ∈ store, r.slug ≠ g2.slug) ∧
        (g.slug ≠ "" → g2.slug = g.slug)) ∧
    (∀ (p p2 : Post) (coverName : String) (store store2 : List Post)
        (resized : Bool),
      Post.save p suffix coverName store = some (p2, store2, resized) →
        (p.slug = "" → p2.slug ≠ "" ∧ store2 = p2 :: store ∧
          ∀ r ∈ store, r.slug ≠ p2.slug) ∧
        (p.slug ≠ "" → p2.slug = p.slug)) := by
  refine ⟨?_, ?_, ?_, ?_⟩
  · intro t t2 store store2 hsave
    simp only [Tag.save] at hsave
    split at hsave
    · next hblank =>
      split at hsave
      · exact absurd hsave (by simp)
      · next hguard =>
        rw [Option.some.injEq, Prod.mk.injEq] at hsave
        obtain ⟨ht2, hstore2⟩ := hsave
        constructor
        · intro _
          refine ⟨?_, ?_, ?_⟩
          · rw [← ht2]
            exact slugify_new_ne_empty t.name suffix
          · rw [← hstore2, ht2]
          · intro r hr
            have hna := all_not_of_not_any hguard r hr
            rw [← ht2]
            simpa using hna
        · intro hfilled
          exact absurd hblank hfilled
    · next hfilled =>
      split at hsave
      · exact absurd hsave (by simp)
      · next hguard =>
        rw [Option.some.injEq, Prod.mk.injEq] at hsave
        obtain ⟨ht2, hstore2⟩ := hsave
        constructor
        · intro hblank
          exact absurd hblank hfilled
        · intro _
          rw [← ht2]
  · intro c c2 store store2 hsave
    simp only [Category.save] at hsave
    split at hsave
    · next hblank =>
      split at hsave
      · exact absurd hsave (by simp)
      · next hguard =>
        rw [Option.some.injEq, Prod.mk.injEq] at hsave
        obtain ⟨hc2, hstore2⟩ := hsave
        constructor
        · intro _
          refine ⟨?_, ?_, ?_⟩
          · rw [← hc2]
            exact slugify_new_ne_empty c.name suffix
          · rw [← hstore2, hc2]
          · intro r hr
            have hna := all_not_of_not_any hguard r hr
            rw [← hc2]
            simpa using hna
        · intro hfilled
          exact absurd hblank hfilled
    · next hfilled =>
      split at hsave
      · exact absurd hsave (by simp)
      · next hguard =>
        rw [Option.some.injEq, Prod.mk.injEq] at hsave
        obtain ⟨hc2, hstore2⟩ := hsave
        constructor
        · intro hblank
          exact absurd hblank hfilled
        · intro _
          rw [← hc2]
  · intro g g2 store store2 hsave
    simp only [Page.save] at hsave
    split at hsave
    · next hblank =>
      split at hsave
      · exact absurd hsave (by simp)
      · next hguard =>
        rw [Option.some.injEq, Prod.mk.injEq] at hsave
        obtain ⟨hg2, hstore2⟩ := hsave
        constructor
        · intro _
          refine ⟨?_, ?_, ?_⟩
          · rw [← hg2]
            exact slugify_new_ne_empty g.title suffix
          · rw [← hstore2, hg2]
          · intro r hr
            have hna := all_not_of_not_any hguard r hr
            rw [← hg2]
            simpa using hna
        · intro hfilled
          exact absurd hblank hfilled
    · next hfilled =>
      split at hsave
      · exact absurd hsave (by simp)
      · next hguard =>
        rw [Option.some.injEq, Prod.mk.injEq] at hsave
        obtain ⟨hg2, hstore2⟩ := hsave
        constructor
        · intro hblank
          exact absurd hblank hfilled
        · intro _
          rw [← hg2]
  · intro p p2 coverName store store2 resized hsave
    simp only [Post.save] at hsave
    split at hsave
    · next hblank =>
      split at hsave
      · exact absurd hsave (by simp)
      · next hguard =>
        rw [Option.some.injEq, Prod.mk.injEq, Prod.mk.injEq] at hsave
        obtain ⟨hp2, hstore2, hres⟩ := hsave
        constructor
        · intro _
          refine ⟨?_, ?_, ?_⟩
          · rw [← hp2]
            simpa using slugify_new_ne_empty p.title suffix
          · rw [← hstore2, hp2]
          · intro r hr
            have hna := all_not_of_not_any hguard r hr
            rw [← hp2]
            simpa using hna
        · intro hfilled
          exact absurd hblank hfilled
    · next hfilled =>
      split at hsave
      · exact absurd hsave (by simp)
      · next hguard =>
        rw [Option.some.injEq, Prod.mk.injEq, Prod.mk.injEq] at hsave
        obtain ⟨hp2, hstore2, hres⟩ := hsave
        constructor
        · intro hblank
          exact absurd hblank hfilled
        · intro _
          rw [← hp2]

/-- Non-vacuity of `C2_slug_invariants_on_save`: a concrete blank-slug save
and a concrete non-blank-slug save, with the theorem's conclusions. -/
theorem C2_slug_invariants_on_save_witness :
    (({ name := "My Tag", slug := "my-tag-ab12" } : Tag).slug ≠ "" ∧
      ([{ name := "My Tag", slug := "my-tag-ab12" }, tagA] : List Tag) =
        { name := "My Tag", slug := "my-tag-ab12" } :: [tagA] ∧
      ∀ r ∈ [tagA], r.slug ≠ ({ name := "My Tag", slug := "my-tag-ab12" } : Tag).slug) ∧
    (tagA.slug = tagA.slug) := by
  constructor
  · exact ((C2_slug_invariants_on_save "ab12").1 { name := "My Tag", slug := "" }
      { name := "My Tag", slug := "my-tag-ab12" } [tagA]
      [{ name := "My Tag", slug := "my-tag-ab12" }, tagA] (by decide)).1 rfl
  · exact ((C2_slug_invariants_on_save "ab12").1 tagA tagA [] [tagA]
      (by decide)).2 (by decide)

/-! Character-set analysis of `slugify` output. -/

theorem mem_collapseDashWs {c : Char} {b : Bool} {l : List Char}
    (h : c ∈ collapseDashWs b l) :
    c.toNat = 45 ∨ (c ∈ l ∧ isDashOrWs c = false) := by
  induction l generalizing b with
  | nil => simp [collapseDashWs] at h
  | cons d rest ih =>
    simp only [collapseDashWs] at h
    split at h
    · split at h
      · rcases ih h with h45 | ⟨hmem, hnd⟩
        · exact Or.inl h45
        · exact Or.inr ⟨List.mem_cons_of_mem _ hmem, hnd⟩
      · rcases List.mem_cons.mp h with rfl | h2
        · exact Or.inl (by decide)
        · rcases ih h2 with h45 | ⟨hmem, hnd⟩
          · exact Or.inl h45
          · exact Or.inr ⟨List.mem_cons_of_mem _ hmem, hnd⟩
    · next hnotsep =>
      rcases List.mem_cons.mp h with rfl | h2
      · exact Or.inr ⟨List.mem_cons_self _ _, Bool.eq_false_iff.mpr hnotsep⟩
      · rcases ih h2 with h45 | ⟨hmem, hnd⟩
        · exact Or.inl h45
        · exact Or.inr ⟨List.mem_cons_of_mem _ hmem, hnd⟩

theorem mem_stripDashUnderscore {c : Char} {l : List Char}
    (h : c ∈ stripDashUnderscore l) : c ∈ l := by
  unfold stripDashUnderscore at h
  have h1 := List.mem_reverse.mp h
  have h2 := List.dropWhile_subset _ h1
  have h3 := List.mem_reverse.mp h2
  exact List.dropWhile_subset _ h3

/-- Every character of a `slugify` result is a lowercase ASCII letter, a
digit, a hyphen, or an underscore. -/
theorem slugify_char_mem {c : Char} {s : String} (h : c ∈ (slugify s).data) :
    isLowerA c = true ∨ isDigitA c = true ∨ c.toNat = 45 ∨ c.toNat = 95 := by
  unfold slugify at h
  have h1 : c ∈ collapseDashWs false
      (((s.data.filter (fun c => c.toNat < 128)).map lower).filter
        (fun c => isPyWord c || isPyWs c || c.toNat = 45)) :=
    mem_stripDashUnderscore h
  rcases mem_collapseDashWs h1 with h45 | ⟨hmem, hnd⟩
  · exact Or.inr (Or.inr (Or.inl h45))
  · have hf := List.mem_filter.mp hmem
    obtain ⟨hmap, hkeep⟩ := hf
    obtain ⟨c0, _, hc0⟩ := List.mem_map.mp hmap
    simp only [Bool.or_eq_true, decide_eq_true_eq] at hkeep
    simp only [isDashOrWs, Bool.or_eq_false_iff, decide_eq_false_iff_not] at hnd
    obtain ⟨hnws, hn45⟩ := hnd
    have hword : isPyWord c = true := by
      rcases hkeep with (hw | hws) | h45
      · exact hw
      · exact absurd hws (by simp [hnws])
      · exact absurd h45 hn45
    have hupper : isUpperA c = false := by
      rw [← hc0]
      exact isUpperA_lower c0
    simp only [isPyWord, isAlphanumA, Bool.or_eq_true, decide_eq_true_eq] at hword
    rcases hword with ((hu | hl) | hd) | h95
    · rw [hupper] at hu
      exact absurd hu (by simp)
    · exact Or.inl hl
    · exact Or.inr (Or.inl hd)
    · exact Or.inr (Or.inr (Or.inr h95))

/-- Every character of a `slugify_new` result is a lowercase ASCII letter, a
digit, a hyphen, or an underscore, provided the random suffix draws from
`[a-z0-9]`. -/
theorem slugify_new_char_mem {c : Char} {t suffix : String}
    (hchars : suffix.data.all isRandChar = true)
    (hc : c ∈ (slugify_new t suffix).data) :
    isLowerA c = true ∨ isDigitA c = true ∨ c.toNat = 45 ∨ c.toNat = 95 := by
  unfold slugify_new at hc
  rw [String.data_append, String.data_append] at hc
  rcases List.mem_append.mp hc with hc1 | hc2
  · rcases List.mem_append.mp hc1 with hs1 | hd
    · exact slugify_char_mem hs1
    · have hdash : c = '-' := by simpa using hd
      subst hdash
      exact Or.inr (Or.inr (Or.inl (by decide)))
  · have hr := List.all_eq_true.mp hchars c hc2
    simp only [isRandChar, Bool.or_eq_true] at hr
    rcases hr with hl | hd
    · exact Or.inl hl
    · exact Or.inr (Or.inl hd)

/-- C3 as stated is false: `slugify_new` can return underscores, because
Python's `\w` class (kept by `re.sub(r"[^\w\s-]", "", ...)` inside
`django.utils.text.slugify`) includes the underscore and `.strip("-_")` only
removes it at the ends. Concrete input: text `"a_b"` with a valid 4-character
random suffix; the result `"a_b-abcd"` contains a character that is neither a
lowercase letter, nor a digit, nor a hyphen. -/
theorem C3_counterexample :
    randomLettersSpec "abcd" 4 = true ∧
    slugify_new "a_b" "abcd" = "a_b-abcd" ∧
    ¬(∀ c ∈ (slugify_new "a_b" "abcd").data,
        isLowerA c = true ∨ isDigitA c = true ∨ c.toNat = 45) := by
  decide

/-- C3 (amended): for every input string `t` and every positive length `k`,
`slugify_new(t, k)` returns a string containing only lowercase letters,
digits, hyphens, and underscores, whose last `k+1` characters are a hyphen
followed by the `k`-character random suffix of lowercase letters and digits. -/
theorem C3_slugify_new_shape (t suffix : String) (k : Nat) (hk : 1 ≤ k)
    (hs : randomLettersSpec suffix k = true) :
    (∀ c ∈ (slugify_new t suffix).data,
      isLowerA c = true ∨ isDigitA c = true ∨ c.toNat = 45 ∨ c.toNat = 95) ∧
    ∃ front, (slugify_new t suffix).data = front ++ '-' :: suffix.data ∧
      suffix.data.length = k := by
  simp only [randomLettersSpec, Bool.and_eq_true, beq_iff_eq] at hs
  obtain ⟨hlen, hchars⟩ := hs
  constructor
  · intro c hc
    exact slugify_new_char_mem hchars hc
  · refine ⟨(slugify t).data, ?_, hlen⟩
    unfold slugify_new
    rw [String.data_append, String.data_append]
    simp

/-- Non-vacuity of `C3_slugify_new_shape` at a concrete title and suffix. -/
theorem C3_slugify_new_shape_witness :
    (∀ c ∈ (slugify_new "Hello World" "x1y2").data,
      isLowerA c = true ∨ isDigitA c = true ∨ c.toNat = 45 ∨ c.toNat = 95) ∧
    ∃ front, (slugify_new "Hello World" "x1y2").data =
        front ++ '-' :: ("x1y2" : String).data ∧
      ("x1y2" : String).data.length = 4 :=
  C3_slugify_new_shape "Hello World" "x1y2" 4 (by decide) (by decide)

/-! Commutation of ASCII lowering with `str.split()` and `' '.join`, used to
relate `sanitize_search_query` (which lowercases before splitting) to the
specification phrasing (which lowercases the final result). -/

theorem map_lower_isEmpty (l : List Char) : (l.map lower).isEmpty = l.isEmpty := by
  cases l <;> rfl

theorem pySplitAux_map_lower (cur l : List Char) :
    pySplitAux (cur.map lower) (l.map lower) =
      (pySplitAux cur l).map (List.map lower) := by
  induction l generalizing cur with
  | nil =>
    cases cur with
    | nil => rfl
    | cons c cs =>
      simp only [List.map_nil, pySplitAux, List.isEmpty_cons, map_lower_isEmpty]
      simp [List.map_reverse]
  | cons c rest ih =>
    simp only [List.map_cons, pySplitAux, isPyWs_lower]
    by_cases hws : isPyWs c = true
    · rw [if_pos hws, if_pos hws, map_lower_isEmpty]
      cases cur with
      | nil =>
        simpa using ih []
      | cons d ds =>
        have htail := ih []
        simp only [List.map_nil] at htail
        simp only [List.isEmpty_cons, Bool.false_eq_true, if_false, htail,
          List.map_cons]
        rw [show (lower d :: List.map lower ds) = List.map lower (d :: ds) from rfl]
        rw [← List.map_reverse]
    · rw [if_neg hws, if_neg hws]
      rw [show (lower c :: cur.map lower) = ((c :: cur).map lower) from rfl]
      exact ih (c :: cur)

theorem joinSpace_map_lower (L : List (List Char)) :
    joinSpace (L.map (List.map lower)) = (joinSpace L).map lower := by
  induction L with
  | nil => rfl
  | cons w ws ih =>
    cases ws with
    | nil => rfl
    | cons w2 ws2 =>
      simp only [List.map_cons, joinSpace] at ih ⊢
      rw [ih, List.map_append, List.map_cons]
      rfl

theorem joinSplit_lower (m : List Char) :
    joinSpace (pySplit (m.map lower)) = (joinSpace (pySplit m)).map lower := by
  unfold pySplit
  have h := pySplitAux_map_lower [] m
  simp only [List.map_nil] at h
  rw [h, joinSpace_map_lower]

/-- C4 as stated is false: `sanitize_search_query` keeps underscores (`\w`
includes `_`), while the claimed description replaces them with spaces.
Concrete input `"a_b"`: the code returns `"a_b"`, the description `"a b"`. -/
theorem C4_counterexample :
    sanitize_search_query "a_b" = "a_b" ∧ sanitizeClaimC4 "a_b" = "a b" ∧
    sanitize_search_query "a_b" ≠ sanitizeClaimC4 "a_b" := by
  decide

/-- C4 (amended): for every query string, `sanitize_search_query` returns the
string obtained by replacing every character that is neither alphanumeric,
nor an underscore, nor whitespace with a space, collapsing every run of
whitespace to a single space (no leading or trailing space), and lowercasing
the result. -/
theorem C4_sanitize_matches_description (query : String) :
    sanitize_search_query query = sanitizeSpecC4 query := by
  have hfun : (fun c => if isPyWord c || isPyWs c then c else ' ')
      = (fun c => if isAlphanumA c || c.toNat = 95 || isPyWs c then c else ' ') := by
    funext c
    simp [isPyWord, Bool.or_assoc]
  simp only [sanitize_search_query, sanitizeSpecC4, hfun]
  exact congrArg String.mk (joinSplit_lower _)

/-- C5 as stated is false: a page number beyond the last populated page does
not yield an empty result — `Paginator.validate_number` raises `EmptyPage`,
which `ListView.paginate_queryset` converts to `Http404`. Concrete input: the
sample store has one published post, hence one page; requesting page 2 errors
and in particular is not an empty success. -/
theorem C5_counterexample :
    Paginator.num_pages (PostListView.queryset storeA).length PER_PAGE = 1 ∧
    paginate_queryset (PostListView.queryset storeA) PER_PAGE 2 =
      Except.error Http404.notFound ∧
    paginate_queryset (PostListView.queryset storeA) PER_PAGE 2 ≠
      Except.ok [] := by
  decide

/-- C5 (amended): the listing operation paginates with a fixed page size of 9
and pages are selected by 1-based page number; a page number within
`1..num_pages` yields the corresponding slice, and for every filter
specification, requesting a page number beyond the last populated page (or
page 0) signals not-found rather than yielding an empty result. -/
theorem C5_pagination_shape (l : List Post) (s : Store) (f : Post → Bool)
    (n : Nat) :
    PER_PAGE = 9 ∧
    (1 ≤ n → n ≤ Paginator.num_pages l.length PER_PAGE →
      paginate_queryset l PER_PAGE n =
        Except.ok ((l.drop ((n - 1) * PER_PAGE)).take PER_PAGE)) ∧
    (Paginator.num_pages ((PostListView.queryset s).filter f).length PER_PAGE < n →
      paginate_queryset ((PostListView.queryset s).filter f) PER_PAGE n =
        Except.error Http404.notFound) ∧
    paginate_queryset l PER_PAGE 0 = Except.error Http404.notFound := by
  refine ⟨rfl, ?_, ?_, ?_⟩
  · intro h1 h2
    unfold paginate_queryset
    rw [if_pos ⟨h1, h2⟩]
  · intro hgt
    unfold paginate_queryset
    rw [if_neg (by omega)]
  · unfold paginate_queryset
    rw [if_neg (by omega)]

/-- Non-vacuity of `C5_pagination_shape`: page 1 of the sample store is the
single published post; page 2 of the same (trivially filtered) listing
signals not-found. -/
theorem C5_pagination_shape_witness :
    paginate_queryset (PostListView.queryset storeA) PER_PAGE 1 =
      Except.ok [postA] ∧
    paginate_queryset ((PostListView.queryset storeA).filter (fun _ => true))
      PER_PAGE 2 = Except.error Http404.notFound := by
  constructor
  · have h := (C5_pagination_shape (PostListView.queryset storeA) storeA
      (fun _ => true) 1).2.1 (by decide) (by decide)
    rw [h]
    decide
  · exact (C5_pagination_shape (PostListView.queryset storeA) storeA
      (fun _ => true) 2).2.2.1 (by decide)

/-- C6 as stated is false in one detail: for the empty string the returned
slug is not the random suffix alone — `slugify('') + '-' + suffix` keeps the
joining hyphen, so the result is a hyphen followed by the suffix. -/
theorem C6_counterexample :
    randomLettersSpec "abcde" 5 = true ∧
    slugify_new "" "abcde" = "-abcde" ∧
    slugify_new "" "abcde" ≠ "abcde" := by
  decide

/-- C6 (amended): `slugify_new` is total — for every input string it returns
a valid slug (non-empty, over `[-a-zA-Z0-9_]`); for the empty string the
returned slug is a hyphen followed by the random suffix. -/
theorem C6_slugify_new_total (t suffix : String) (k : Nat)
    (hs : randomLettersSpec suffix k = true) :
    isValidDjangoSlug (slugify_new t suffix) = true ∧
    slugify_new "" suffix = "-" ++ suffix := by
  simp only [randomLettersSpec, Bool.and_eq_true, beq_iff_eq] at hs
  obtain ⟨hlen, hchars⟩ := hs
  constructor
  · simp only [isValidDjangoSlug, Bool.and_eq_true, decide_eq_true_eq]
    constructor
    · unfold slugify_new
      rw [String.length_append, String.length_append]
      have hone : ("-" : String).length = 1 := by decide
      omega
    · apply List.all_eq_true.mpr
      intro c hc
      have := slugify_new_char_mem hchars hc
      simp only [Bool.or_eq_true, decide_eq_true_eq]
      tauto
  · unfold slugify_new
    rw [show slugify "" ++ "-" = "-" from by decide]

/-- Non-vacuity of `C6_slugify_new_total` at a concrete suffix. -/
theorem C6_slugify_new_total_witness :
    isValidDjangoSlug (slugify_new "" "ab1") = true ∧
    slugify_new "" "ab1" = "-" ++ "ab1" :=
  C6_slugify_new_total "" "ab1" 3 (by decide)

/-- C7: `resize_image` is invoked by `Post.save` only on a save where the
stored cover file name after the write differs from the name captured before
the write. In particular a save whose post-write cover name equals the
pre-save name (a second save without changing the cover field) never invokes
it, so consecutive saves with an unchanged cover trigger the processor at
most once — on the save that changed it. -/
theorem C7_resize_only_on_cover_change :
    (∀ (p : Post) (suffix : String) (store : List Post) (p2 : Post)
        (store2 : List Post) (resized : Bool),
      Post.save p suffix p.cover store = some (p2, store2, resized) →
        resized = false) ∧
    (∀ (p : Post) (suffix coverName : String) (store : List Post) (p2 : Post)
        (store2 : List Post),
      Post.save p suffix coverName store = some (p2, store2, true) →
        coverName ≠ p.cover) ∧
    (∀ (p : Post) (suffix coverName : String) (store : List Post) (p2 : Post)
        (store2 : List Post) (r1 : Bool) (suffix2 : String)
        (store3 : List Post) (p3 : Post) (store4 : List Post) (r2 : Bool),
      Post.save p suffix coverName store = some (p2, store2, r1) →
      Post.save p2 suffix2 p2.cover store3 = some (p3, store4, r2) →
        r2 = false) := by
  have hNoChange : ∀ (p : Post) (suffix : String) (store : List Post)
      (p2 : Post) (store2 : List Post) (resized : Bool),
      Post.save p suffix p.cover store = some (p2, store2, resized) →
        resized = false := by
    intro p suffix store p2 store2 resized hsave
    simp only [Post.save] at hsave
    split at hsave <;>
      (split at hsave
       · exact absurd hsave (by simp)
       · rw [Option.some.injEq, Prod.mk.injEq, Prod.mk.injEq] at hsave
         obtain ⟨hp2, hstore2, hres⟩ := hsave
         rw [← hres]
         simp)
  refine ⟨hNoChange, ?_, ?_⟩
  · intro p suffix coverName store p2 store2 hsave
    simp only [Post.save] at hsave
    split at hsave <;>
      (split at hsave
       · exact absurd hsave (by simp)
       · rw [Option.some.injEq, Prod.mk.injEq, Prod.mk.injEq] at hsave
         obtain ⟨hp2, hstore2, hres⟩ := hsave
         by_cases hne : coverName = ""
         · rw [hne] at hres
           simp at hres
         · rw [if_pos (by simpa using hne)] at hres
           intro hcon
           rw [hcon] at hres
           simp at hres)
  · intro p suffix coverName store p2 store2 r1 suffix2 store3 p3 store4 r2
      hsave1 hsave2
    exact hNoChange p2 suffix2 store3 p3 store4 r2 hsave2

/-- Non-vacuity of `C7_resize_only_on_cover_change`: a concrete save that
assigns a new cover file does report a change away from the blank cover, and
a concrete re-save with the unchanged cover does not resize. -/
theorem C7_resize_only_on_cover_change_witness :
    ("cover.jpg" : String) ≠ postA.cover ∧ (false : Bool) = false := by
  constructor
  · exact C7_resize_only_on_cover_change.2.1 postA "s1x2" "cover.jpg" []
      { postA with cover := "cover.jpg" }
      [{ postA with cover := "cover.jpg" }] (by decide)
  · exact C7_resize_only_on_cover_change.1 { postA with cover := "cover.jpg" }
      "s1x2" [] { postA with cover := "cover.jpg" }
      [{ postA with cover := "cover.jpg" }] false (by decide)

/-- C8: for every author id given to the author-filtered listing: if no user
with that id exists, the operation signals not-found rather than returning an
empty list; if the user exists, it returns exactly the published posts whose
`created_by` is that user. -/
theorem C8_created_by_listing (s : Store) (author_pk : Nat) :
    (s.users.contains author_pk = false →
      CreateByListView.get s author_pk = Except.error Http404.notFound) ∧
    (s.users.contains author_pk = true →
      CreateByListView.get s author_pk =
        Except.ok (CreateByListView.get_queryset s author_pk) ∧
      ∀ p, p ∈ CreateByListView.get_queryset s author_pk ↔
        (p ∈ s.posts ∧ p.is_published = true ∧ p.created_by = some author_pk)) := by
  constructor
  · intro h
    have hmem : author_pk ∉ s.users := by
      intro hc
      have hctr : s.users.contains author_pk = true :=
        List.contains_iff_exists_mem_beq.mpr ⟨author_pk, hc, by simp⟩
      rw [h] at hctr
      exact absurd hctr (by simp)
    simp [CreateByListView.get, hmem]
  · intro h
    have hmem : author_pk ∈ s.users := by
      rw [List.contains_iff_exists_mem_beq] at h
      obtain ⟨x, hx, hbeq⟩ := h
      rw [beq_iff_eq] at hbeq
      rw [hbeq]
      exact hx
    constructor
    · simp [CreateByListView.get, hmem]
    · intro p
      unfold CreateByListView.get_queryset
      rw [List.mem_filter]
      constructor
      · rintro ⟨hq, hcb⟩
        refine ⟨mem_posts_of_mem_queryset hq, published_of_mem_queryset hq, ?_⟩
        simpa using hcb
      · rintro ⟨hmem, hpub, hcb⟩
        constructor
        · unfold PostListView.queryset PostManager.get_published
          rw [mem_orderByPkDesc, List.mem_filter]
          exact ⟨hmem, hpub⟩
        · simp [hcb]

/-- Non-vacuity of `C8_created_by_listing`: in the sample store, user 2 does
not exist and the listing signals not-found; user 1 exists and the listing
succeeds with the filtered queryset. -/
theorem C8_created_by_listing_witness :
    CreateByListView.get storeA 2 = Except.error Http404.notFound ∧
    CreateByListView.get storeA 1 =
      Except.ok (CreateByListView.get_queryset storeA 1) := by
  refine ⟨?_, ?_⟩
  · exact (C8_created_by_listing storeA 2).1 (by decide)
  · exact ((C8_created_by_listing storeA 1).2 (by decide)).1

/-- Reduction of `TagListView.get` once the queryset is known to be a
non-empty list. -/
theorem TagListView_get_cons (s : Store) (slug : String) {p : Post}
    {rest : List Post} (hqs : TagListView.get_queryset s slug = p :: rest) :
    TagListView.get s slug =
      match p.tags.filter (fun t => t.slug == slug) with
      | [] => Except.error Http404.notFound
      | tagObj :: _ => Except.ok (p :: rest, tagObj.name ++ " - Tag - ") := by
  unfold TagListView.get
  rw [hqs]

/-- C9: for every tag slug given to the tag-filtered listing: with zero
matching published posts the operation signals not-found; with at least one
matching post, the first matched post necessarily carries a tag with the
requested slug, the operation returns the matched posts, and the page title
is that tag's name followed by `" - Tag - "`; were the tag not resolvable
from the matched posts, the operation would likewise signal not-found. -/
theorem C9_tag_listing (s : Store) (slug : String) :
    (TagListView.get_queryset s slug = [] →
      TagListView.get s slug = Except.error Http404.notFound) ∧
    (∀ p rest, TagListView.get_queryset s slug = p :: rest →
      ∃ tagObj tl, p.tags.filter (fun t => t.slug == slug) = tagObj :: tl ∧
        tagObj ∈ p.tags ∧ tagObj.slug = slug ∧
        TagListView.get s slug =
          Except.ok (p :: rest, tagObj.name ++ " - Tag - ")) ∧
    (∀ p rest, TagListView.get_queryset s slug = p :: rest →
      p.tags.filter (fun t => t.slug == slug) = [] →
      TagListView.get s slug = Except.error Http404.notFound) := by
  refine ⟨?_, ?_, ?_⟩
  · intro hempty
    unfold TagListView.get
    rw [hempty]
  · intro p rest hqs
    have hpmem : p ∈ TagListView.get_queryset s slug := by
      rw [hqs]
      exact List.mem_cons_self _ _
    have hany := (List.mem_filter.mp hpmem).2
    rw [List.any_eq_true] at hany
    obtain ⟨t0, ht0mem, ht0slug⟩ := hany
    cases hfil : p.tags.filter (fun t => t.slug == slug) with
    | nil =>
      exfalso
      have hin : t0 ∈ p.tags.filter (fun t => t.slug == slug) :=
        List.mem_filter.mpr ⟨ht0mem, ht0slug⟩
      rw [hfil] at hin
      exact absurd hin (List.not_mem_nil t0)
    | cons tagObj tl =>
      have hobj : tagObj ∈ p.tags.filter (fun t => t.slug == slug) := by
        rw [hfil]
        exact List.mem_cons_self _ _
      have hobj2 := List.mem_filter.mp hobj
      refine ⟨tagObj, tl, rfl, hobj2.1, by simpa using hobj2.2, ?_⟩
      rw [TagListView_get_cons s slug hqs, hfil]
  · intro p rest hqs hfil
    rw [TagListView_get_cons s slug hqs, hfil]

/-- Non-vacuity of `C9_tag_listing`: in the sample store, slug `test_tag`
matches the published post and titles the page with the tag name, while slug
`missing` matches nothing and signals not-found. -/
theorem C9_tag_listing_witness :
    TagListView.get storeA "test_tag" =
      Except.ok ([postA], "Test Tag - Tag - ") ∧
    TagListView.get storeA "missing" = Except.error Http404.notFound := by
  constructor
  · obtain ⟨tagObj, tl, hfil, hmem, hslug, hok⟩ :=
      (C9_tag_listing storeA "test_tag").2.1 postA [] (by decide)
    have hfil2 : postA.tags.filter (fun t => t.slug == "test_tag") = [tagA] := by
      decide
    rw [hfil2] at hfil
    obtain ⟨hobj, htl⟩ : tagA = tagObj ∧ ([] : List Tag) = tl := by
      rw [List.cons.injEq] at hfil
      exact hfil
    rw [← hobj] at hok
    exact hok
  · exact (C9_tag_listing storeA "missing").1 (by decide)

/-- C10: for every store state and every search value, the search listing
returns at most 9 posts — its queryset is the 9-element initial slice of the
published, filtered, descending-by-pk ordering — and every post on any
requested page of the search listing lies within that initial slice, so no
page number surfaces matches beyond the first 9. -/
theorem C10_search_slice (s : Store) (q : String) (n : Nat) :
    (SearchListView.get_queryset s q).length ≤ 9 ∧
    SearchListView.get_queryset s q = (searchMatches s q).take PER_PAGE ∧
    (∀ page, paginate_queryset (SearchListView.get_queryset s q) PER_PAGE n =
        Except.ok page →
      ∀ p ∈ page, p ∈ (searchMatches s q).take PER_PAGE) := by
  refine ⟨?_, rfl, ?_⟩
  · unfold SearchListView.get_queryset
    exact List.length_take_le PER_PAGE (searchMatches s q)
  · intro page hok p hp
    unfold paginate_queryset at hok
    split at hok
    · rw [Except.ok.injEq] at hok
      rw [← hok] at hp
      have h1 := List.take_subset _ _ hp
      have h2 := List.drop_subset _ _ h1
      exact h2
    · exact absurd hok (by simp)

/-- Non-vacuity of `C10_search_slice`: page 1 of the sample search for
`post` returns the published post, which lies in the 9-element slice. -/
theorem C10_search_slice_witness :
    postA ∈ (searchMatches storeA "post").take PER_PAGE :=
  (C10_search_slice storeA "post" 1).2.2 [postA] (by decide) postA (by decide)
